import Mathlib

/-!
StereoPipeline: sessions, camera interface, adjustments, residuals, geodiff

A shallow embedding of the four source files

* `src/asp/Sessions/RPC/StereoSessionRPC.h`
* `src/asp/IsisIO/IsisInterface.h`
* `src/asp/Core/BundleAdjustUtils.h`
* `src/asp/Tools/geodiff.cc`

followed by the properties established about them.  Scalars (`double` in the
sources) are kept abstract: every definition is parametric in the scalar type
and only uses the operations the source uses on it.
-/

namespace asp

/-! ## Geometry value types (`vw::Vector2`, `vw::Vector3`, `vw::Quat`) -/

/-- Two-component vector, `vw::Vector2`. -/
structure Vector2 (α : Type) where
  x : α
  y : α
  deriving DecidableEq

/-- Three-component vector, `vw::Vector3`. -/
structure Vector3 (α : Type) where
  x : α
  y : α
  z : α
  deriving DecidableEq

/-- Quaternion `vw::Quat`, stored as `(w, x, y, z)`. -/
structure Quat (α : Type) where
  w : α
  x : α
  y : α
  z : α
  deriving DecidableEq

/-- Modelled from the spec: the default-constructed `vw::Vector2()` used as the
default pixel argument in `IsisInterface.h`; the class itself lives in the
VisionWorkbench library and the spec calls this value the origin. -/
def Vector2.origin {α : Type} [Zero α] : Vector2 α := ⟨0, 0⟩

instance {α : Type} [Sub α] : Sub (Vector2 α) := ⟨fun a b => ⟨a.x - b.x, a.y - b.y⟩⟩

instance {α : Type} [Add α] : Add (Vector3 α) := ⟨fun a b => ⟨a.x + b.x, a.y + b.y, a.z + b.z⟩⟩

/-! ## `StereoSessionRPC.h` -/

/-- The exception classes of `vw/Core/Exception.h` raised by the sources, with
the message streamed into them. -/
inductive VwException where
  | NoImplErr (message : String)
  deriving DecidableEq

/-- The virtual interface of `StereoSession` as far as `StereoSessionRPC.h`
overrides it: producing a camera model from an image file and a camera file.
A thrown exception is the `Except.error` result. -/
structure StereoSession (CameraModel : Type) where
  camera_model : String → String → Except VwException CameraModel

/-- A call `session->camera_model(image_file)` or
`session->camera_model(image_file, camera_file)`: the second argument defaults
to the empty string. -/
def StereoSession.call_camera_model {CameraModel : Type} (s : StereoSession CameraModel)
    (image_file : String) (camera_file : Option String) : Except VwException CameraModel :=
  s.camera_model image_file (camera_file.getD "")

namespace StereoSessionRPC

/-- `StereoSessionRPC::camera_model`: the body is the single statement
`vw_throw( NoImplErr() << "StereoSessionRPC: Not implemented" )`. -/
def camera_model {CameraModel : Type} (_image_file : String) (_camera_file : String) :
    Except VwException CameraModel :=
  Except.error (VwException.NoImplErr "StereoSessionRPC: Not implemented")

/-- `StereoSessionRPC::construct`: `new StereoSessionRPC`, seen through the
base-class pointer; the virtual `camera_model` is the override above. -/
def construct {CameraModel : Type} : StereoSession CameraModel :=
  { camera_model := camera_model }

end StereoSessionRPC

/-! ## `IsisInterface.h` -/

/-- The geometric queries of `asp::isis::IsisInterface`.  The four pure virtual
methods are supplied by the concrete camera; `ephemeris_time` and
`sun_position` are member functions whose bodies are not part of the header and
are likewise taken as given. -/
structure IsisInterface (α : Type) where
  point_to_pixel : Vector3 α → Vector2 α
  pixel_to_vector : Vector2 α → Vector3 α
  camera_center : Vector2 α → Vector3 α
  camera_pose : Vector2 α → Quat α
  ephemeris_time : Vector2 α → α
  sun_position : Vector2 α → Vector3 α

namespace IsisInterface

/-- A call expression on the interface: the method named, with its single
argument either written out or omitted at the call site. -/
inductive Call (α : Type) where
  | point_to_pixel (point : Option (Vector3 α))
  | pixel_to_vector (pix : Option (Vector2 α))
  | camera_center (pix : Option (Vector2 α))
  | camera_pose (pix : Option (Vector2 α))
  | ephemeris_time (pix : Option (Vector2 α))
  | sun_position (pix : Option (Vector2 α))

/-- What a call yields. -/
inductive Value (α : Type) where
  | vector2 (v : Vector2 α)
  | vector3 (v : Vector3 α)
  | quat (q : Quat α)
  | scalar (t : α)
  deriving DecidableEq

/-- Resolution of a call against the declarations of lines 56-72.  A parameter
declared with `= vw::Vector2()` takes that value when the argument is omitted;
a parameter declared without a default makes the call ill-formed when the
argument is omitted, which is the result `none`. -/
def Call.eval {α : Type} [Zero α] (c : IsisInterface α) : Call α → Option (Value α)
  | .point_to_pixel (some point) => some (.vector2 (c.point_to_pixel point))
  | .point_to_pixel none => none
  | .pixel_to_vector (some pix) => some (.vector3 (c.pixel_to_vector pix))
  | .pixel_to_vector none => none
  | .camera_center pix => some (.vector3 (c.camera_center (pix.getD Vector2.origin)))
  | .camera_pose pix => some (.quat (c.camera_pose (pix.getD Vector2.origin)))
  | .ephemeris_time (some pix) => some (.scalar (c.ephemeris_time pix))
  | .ephemeris_time none => none
  | .sun_position pix => some (.vector3 (c.sun_position (pix.getD Vector2.origin)))

end IsisInterface

/-! ## Pose corrections and the adjusted camera model -/

namespace Quat

/-- Hamilton product of two quaternions. -/
def mul {α : Type} [Add α] [Sub α] [Mul α] (p q : Quat α) : Quat α :=
  { w := p.w * q.w - p.x * q.x - p.y * q.y - p.z * q.z
    x := p.w * q.x + p.x * q.w + p.y * q.z - p.z * q.y
    y := p.w * q.y - p.x * q.z + p.y * q.w + p.z * q.x
    z := p.w * q.z + p.x * q.y - p.y * q.x + p.z * q.w }

/-- Conjugate, the inverse of a unit quaternion. -/
def conj {α : Type} [Neg α] (q : Quat α) : Quat α :=
  { w := q.w, x := -q.x, y := -q.y, z := -q.z }

/-- The identity rotation `(1, 0, 0, 0)`. -/
def identity {α : Type} [Zero α] [One α] : Quat α := ⟨1, 0, 0, 0⟩

/-- Modelled from the spec: `rotation.rotate(v)` of section 4.3, the action of a
unit quaternion on a vector, `q * (0, v) * conj q`; the quaternion class itself
is not among the sources. -/
def rotate {α : Type} [Zero α] [Add α] [Sub α] [Mul α] [Neg α] (q : Quat α) (v : Vector3 α) :
    Vector3 α :=
  let r := mul (mul q ⟨0, v.x, v.y, v.z⟩) (conj q)
  ⟨r.x, r.y, r.z⟩

end Quat

/-- Pose correction of spec section 3: a translation and a rotation. -/
structure PoseCorrection (α : Type) where
  translation : Vector3 α
  rotation : Quat α

/-- The identity correction: zero translation, identity rotation. -/
def PoseCorrection.identity {α : Type} [Zero α] [One α] : PoseCorrection α :=
  { translation := ⟨0, 0, 0⟩, rotation := Quat.identity }

/-- Modelled from the spec: the adjusted camera model of section 4.3, which is not
among the sources; it holds a base camera (here the `IsisInterface` queries) and
one pose correction. -/
structure AdjustedCameraModel (α : Type) where
  base : IsisInterface α
  correction : PoseCorrection α

namespace AdjustedCameraModel

/-- Modelled from the spec: section 4.3,
`camera_center(pixel) = correction.translation + correction.rotation.rotate(base.camera_center(pixel))`. -/
def camera_center {α : Type} [Zero α] [Add α] [Sub α] [Mul α] [Neg α]
    (m : AdjustedCameraModel α) (pixel : Vector2 α) : Vector3 α :=
  m.correction.translation + m.correction.rotation.rotate (m.base.camera_center pixel)

/-- Modelled from the spec: section 4.3,
`camera_pose(pixel) = correction.rotation * base.camera_pose(pixel)`. -/
def camera_pose {α : Type} [Add α] [Sub α] [Mul α]
    (m : AdjustedCameraModel α) (pixel : Vector2 α) : Quat α :=
  Quat.mul m.correction.rotation (m.base.camera_pose pixel)

end AdjustedCameraModel

/-! ## Control network and residual computation -/

/-- Modelled from the spec: the camera capability the residual computation
consumes (section 4.1).  `point_to_pixel` may fail for a ground point (behind the
sensor, outside the trajectory window); a failed projection is `none`. -/
structure CameraModel (α : Type) where
  point_to_pixel : Vector3 α → Option (Vector2 α)

/-- Modelled from the spec: a measurement of section 3, a camera index and the
observed pixel.  The index is valid for the collection of `n` camera models, as
the control-network invariant requires. -/
structure Measurement (n : Nat) (α : Type) where
  camera_index : Fin n
  observed_pixel : Vector2 α

/-- Modelled from the spec: a tie point with its estimated ground position and
its measurements in stored order. -/
structure TiePoint (n : Nat) (α : Type) where
  ground_position : Vector3 α
  measurements : List (Measurement n α)

/-- Modelled from the spec: a control network, the tie points in their stable
iteration order. -/
abbrev ControlNetwork (n : Nat) (α : Type) := List (TiePoint n α)

/-- Modelled from the spec: one entry of the residual vector, either a 2D pixel
error or the flagged value that marks a failed projection (section 4.4). -/
inductive Residual (α : Type) where
  | error (v : Vector2 α)
  | flagged
  deriving DecidableEq

/-- The measurements of a network in residual order: tie points in network
order, and within a tie point the measurements in stored order, each paired
with the ground position of its tie point. -/
def ControlNetwork.observations {n : Nat} {α : Type} :
    ControlNetwork n α → List (Vector3 α × Measurement n α)
  | [] => []
  | tp :: rest => tp.measurements.map (fun m => (tp.ground_position, m)) ++ observations rest

namespace ResidualComputer

/-- Modelled from the spec: the residual of one measurement (section 4.4).  The
ground position is projected through `models[camera_index].point_to_pixel`; the
residual is projected pixel minus observed pixel, or the flagged value when the
projection fails. -/
def residual {n : Nat} {α : Type} [Sub α] (models : Fin n → CameraModel α)
    (ground_position : Vector3 α) (m : Measurement n α) : Residual α :=
  match (models m.camera_index).point_to_pixel ground_position with
  | some projected_pixel => Residual.error (projected_pixel - m.observed_pixel)
  | none => Residual.flagged

/-- Modelled from the spec: `ResidualComputer.compute` of section 4.4, the
counterpart of `compute_stereo_residuals`, whose body is not among the sources
(`BundleAdjustUtils.h` only declares it, with return type `void`).  The two
nested loops run over the tie points and, within each, over its measurements,
appending one residual per measurement to the output vector. -/
def compute {n : Nat} {α : Type} [Sub α] (models : Fin n → CameraModel α)
    (network : ControlNetwork n α) : List (Residual α) :=
  network.foldl
    (fun out tp =>
      tp.measurements.foldl (fun out m => out ++ [residual models tp.ground_position m]) out)
    []

end ResidualComputer

/-- Scenario of spec section 8.6: a frame camera that projects every ground
point to the fixed pixel given. -/
def fixedCamera (px : Vector2 ℤ) : CameraModel ℤ := ⟨fun _ => some px⟩

/-- A camera whose projection fails on every ground point. -/
def blindCamera : CameraModel ℤ := ⟨fun _ => none⟩

/-- One tie point at `(0, 0, 1000)` seen by cameras 0 and 1 at pixels
`(512, 384)` and `(500, 380)`. -/
def sampleNetwork : ControlNetwork 2 ℤ :=
  [{ ground_position := ⟨0, 0, 1000⟩
     measurements := [⟨0, ⟨512, 384⟩⟩, ⟨1, ⟨500, 380⟩⟩] }]

/-- Two cameras with working projections. -/
def sampleModels : Fin 2 → CameraModel ℤ
  | 0 => fixedCamera ⟨510, 390⟩
  | 1 => fixedCamera ⟨503, 377⟩

/-- Camera 0 projects, camera 1 fails. -/
def halfBlindModels : Fin 2 → CameraModel ℤ
  | 0 => fixedCamera ⟨510, 390⟩
  | 1 => blindCamera

/-! ## `geodiff.cc`: the command line (`boost::program_options`) -/

instance {ε β : Type} [DecidableEq ε] [DecidableEq β] : DecidableEq (Except ε β)
  | .ok a, .ok b => if h : a = b then isTrue (by rw [h]) else isFalse (fun h' => h (by cases h'; rfl))
  | .error a, .error b =>
    if h : a = b then isTrue (by rw [h]) else isFalse (fun h' => h (by cases h'; rfl))
  | .ok _, .error _ => isFalse (fun h => by cases h)
  | .error _, .ok _ => isFalse (fun h => by cases h)

namespace po

/-- How an option takes its value: `"help"` is declared without a value
semantic (a flag), the others with `po::value(&variable)` for a `string` or a
`double` variable. -/
inductive Semantic where
  | flag
  | string_value
  | double_value
  deriving DecidableEq

/-- One entry of an `options_description`: `("output-prefix,o", po::value(..), ..)`
has long name `output-prefix` and short name `o`. -/
structure option_description where
  long_name : String
  short_name : Option Char
  semantic : Semantic
  deriving DecidableEq

/-- An `options_description` is the list of its entries, in declaration order. -/
abbrev options_description := List option_description

/-- A `positional_options_description`: each `add(name, max_count)` in order. -/
abbrev positional_options_description := List (String × Nat)

/-- The exceptions derived from `po::error` that parsing and storing raise. -/
inductive error where
  | unknown_option (name : String)
  | ambiguous_option (name : String)
  | missing_parameter (name : String)
  | extra_parameter (name : String)
  | empty_adjacent_parameter (name : String)
  | too_many_positional_options_error
  | multiple_occurrences (name : String)
  | invalid_option_value (token : String)
  deriving DecidableEq

/-- A parsed `po::option`: the key (empty for a positional token that has not
been named yet) and the value tokens. -/
structure basic_option where
  string_key : String
  value : List String
  deriving DecidableEq

/-- `options_description::find_nothrow(name, approx = false)`: the entry whose
long name is exactly `name`. -/
def find_exact (desc : options_description) (name : String) : Option option_description :=
  desc.find? (fun d => decide (d.long_name = name))

/-- Lookup of a long option as the command-line parser does it, with guessing
allowed: an exact match wins, otherwise the unique entry that `name` is a
beginning of. -/
def find_long (desc : options_description) (name : String) : Except error option_description :=
  match find_exact desc name with
  | some d => .ok d
  | none =>
    match desc.filter (fun d => name.data.isPrefixOf d.long_name.data) with
    | [] => .error (error.unknown_option name)
    | [d] => .ok d
    | _ => .error (error.ambiguous_option name)

/-- Lookup of a short option by its letter. -/
def find_short (desc : options_description) (c : Char) : Option option_description :=
  desc.find? (fun d => decide (d.short_name = some c))

/-- The part of a long option token before `=` and, when there is an `=`, the
part after it. -/
def split_adjacent : List Char → List Char × Option (List Char)
  | [] => ([], none)
  | c :: rest =>
    if c = '=' then ([], some rest)
    else ((split_adjacent rest).1.cons c, (split_adjacent rest).2)

/-- The letters of one short-option token `-abc`.  A flag may be followed by
further letters (sticky options); an option with a value takes the rest of the
token as its value or, when nothing is left, the next token.  The result says
whether the next token was used. -/
def parse_short (desc : options_description) (next : Option String) :
    List Char → Except error (List basic_option × Bool)
  | [] => .ok ([], false)
  | c :: adjacent =>
    match find_short desc c with
    | none => .error (error.unknown_option (String.mk ['-', c]))
    | some d =>
      match d.semantic with
      | .flag =>
        match parse_short desc next adjacent with
        | .error e => .error e
        | .ok (more, used) => .ok (⟨d.long_name, []⟩ :: more, used)
      | _ =>
        match adjacent, next with
        | _ :: _, _ => .ok ([⟨d.long_name, [String.mk adjacent]⟩], false)
        | [], some v => .ok ([⟨d.long_name, [v]⟩], true)
        | [], none => .error (error.missing_parameter d.long_name)

/-- The token loop of `command_line_parser::run` in the default style: `--`
ends the options, `--name`, `--name=value` and `--name value` are long
options, `-n`, `-nvalue` and `-n value` short ones, and every other token is
positional (empty key).  Every option must be found in `desc`; a long name may
be abbreviated, and the stored key is the entry's long name.  The flag says
that the token at the head was already taken as the value of the option before
it. -/
def cmdline (desc : options_description) : Bool → List String → Except error (List basic_option)
  | _, [] => .ok []
  | true, _ :: rest => cmdline desc false rest
  | false, tok :: rest =>
    match tok.data with
    | ['-', '-'] => .ok (rest.map (fun a => ⟨"", [a]⟩))
    | '-' :: '-' :: body =>
      match (split_adjacent body).2 with
      | some [] => .error (error.empty_adjacent_parameter (String.mk (split_adjacent body).1))
      | adjacent =>
        match find_long desc (String.mk (split_adjacent body).1) with
        | .error e => .error e
        | .ok d =>
          match d.semantic, adjacent with
          | .flag, some _ => .error (error.extra_parameter d.long_name)
          | .flag, none => (cmdline desc false rest).map (fun more => ⟨d.long_name, []⟩ :: more)
          | _, some v =>
            (cmdline desc false rest).map (fun more => ⟨d.long_name, [String.mk v]⟩ :: more)
          | _, none =>
            match rest.head? with
            | none => .error (error.missing_parameter d.long_name)
            | some v => (cmdline desc true rest).map (fun more => ⟨d.long_name, [v]⟩ :: more)
    | '-' :: c :: adjacent =>
      match parse_short desc rest.head? (c :: adjacent) with
      | .error e => .error e
      | .ok (opts, used) => (cmdline desc used rest).map (fun more => opts ++ more)
    | _ => (cmdline desc false rest).map (fun more => ⟨"", [tok]⟩ :: more)

/-- `positional_options_description::name_for_position`: the names in the order
added, each repeated up to its count; `none` past `max_total_count`. -/
def name_for_position (p : positional_options_description) (position : Nat) : Option String :=
  (p.map (fun e => List.replicate e.2 e.1)).flatten[position]?

/-- The second pass of `command_line_parser::run`: every positional token gets
the name that `p` gives its position. -/
def name_positionals (p : positional_options_description) :
    Nat → List basic_option → Except error (List basic_option)
  | _, [] => .ok []
  | position, opt :: rest =>
    if opt.string_key = "" then
      match name_for_position p position with
      | none => .error error.too_many_positional_options_error
      | some name =>
        (name_positionals p (position + 1) rest).map
          (fun more => ⟨name, opt.value⟩ :: more)
    else (name_positionals p position rest).map (fun more => opt :: more)

/-- `command_line_parser(argc, argv).options(desc).positional(p).run()`; the
arguments are `argv[1..]`. -/
def run (desc : options_description) (p : positional_options_description)
    (args : List String) : Except error (List basic_option) :=
  match cmdline desc false args with
  | .error e => .error e
  | .ok opts => name_positionals p 0 opts

/-- A value held by the `variables_map`. -/
inductive variable_value (α : Type) where
  | flag
  | string (s : String)
  | double (a : α)
  deriving DecidableEq

/-- The `variables_map`: names with their stored values. -/
abbrev variables_map (α : Type) := List (String × variable_value α)

/-- `variables_map::count`. -/
def variables_map.count {α : Type} (vm : variables_map α) (name : String) : Nat :=
  match vm.lookup name with
  | some _ => 1
  | none => 0

/-- One step of `po::store`: the option's key is looked up in the description
the parser was given (`desc.find(name, false)` raises `unknown_option` when it
is absent), a second occurrence is refused, and the value token is converted as
the option's semantic asks. -/
def store_one {α : Type} (desc : options_description) (lexical_cast : String → Option α)
    (vm : variables_map α) (opt : basic_option) : Except error (variables_map α) :=
  if opt.string_key = "" then .ok vm
  else
    match find_exact desc opt.string_key with
    | none => .error (error.unknown_option opt.string_key)
    | some d =>
      match vm.lookup d.long_name with
      | some _ => .error (error.multiple_occurrences d.long_name)
      | none =>
        match d.semantic, opt.value with
        | .flag, _ => .ok (vm ++ [(d.long_name, variable_value.flag)])
        | .string_value, [v] => .ok (vm ++ [(d.long_name, variable_value.string v)])
        | .double_value, [v] =>
          match lexical_cast v with
          | some a => .ok (vm ++ [(d.long_name, variable_value.double a)])
          | none => .error (error.invalid_option_value v)
        | _, _ => .error (error.invalid_option_value d.long_name)

/-- `po::store(parsed, vm)`: the options are stored in order. -/
def store {α : Type} (desc : options_description) (lexical_cast : String → Option α) :
    variables_map α → List basic_option → Except error (variables_map α)
  | vm, [] => .ok vm
  | vm, opt :: rest =>
    match store_one desc lexical_cast vm opt with
    | .error e => .error e
    | .ok vm' => store desc lexical_cast vm' rest

end po

/-! ## `geodiff.cc`: paths (`boost::filesystem`) -/

namespace fs

/-- The text before and after the last occurrence of `c`, when there is one
(`rfind`). -/
def split_last (c : Char) : List Char → Option (List Char × List Char)
  | [] => none
  | a :: rest =>
    match split_last c rest with
    | some (before, after) => some (a :: before, after)
    | none => if a = c then some ([], rest) else none

/-- A directory text without the separators at its end. -/
def strip_trailing_slashes (l : List Char) : List Char :=
  (l.reverse.dropWhile (fun c => decide (c = '/'))).reverse

/-- `path::branch_path()`: the path without its last element; empty when there
is no separator, the root when nothing but separators precedes the last
element. -/
def branch_path (p : String) : String :=
  match split_last '/' p.data with
  | none => ""
  | some (before, _) =>
    match strip_trailing_slashes before with
    | [] => "/"
    | dir => String.mk dir

/-- The last element of a path: the text after the last separator. -/
def leaf (p : String) : List Char :=
  match split_last '/' p.data with
  | none => p.data
  | some (_, after) => after

/-- `fs::basename(path)`: the last element up to, not including, its last dot;
the whole element when it has no dot. -/
def basename (p : String) : String :=
  match split_last '.' (leaf p) with
  | none => String.mk (leaf p)
  | some (stem, _) => String.mk stem

/-- `lhs / rhs`: the two joined by one separator, none being added when `lhs` is
empty or ends in a separator or `rhs` begins with one. -/
def append (lhs rhs : String) : String :=
  if lhs = "" then rhs
  else if lhs.data.getLast? = some '/' ∨ rhs.data.head? = some '/' then lhs ++ rhs
  else lhs ++ "/" ++ rhs

end fs

/-! ## `geodiff.cc`: image views (`vw/Image`) -/

namespace vw

/-- An image view of one channel: its size and the value at each column and
row. -/
structure ImageView (α : Type) where
  cols : Nat
  rows : Nat
  pixel : Nat → Nat → α

/-- `PixelMask<T>`: a value with a validity flag. -/
structure PixelMask (α : Type) where
  child : α
  valid : Bool

/-- `crop(image, x, y, width, height)`. -/
def crop {α : Type} (image : ImageView α) (x y width height : Nat) : ImageView α :=
  { cols := width, rows := height, pixel := fun i j => image.pixel (x + i) (y + j) }

/-- `image1 - image2`, pixel by pixel on the grid of the first operand. -/
def image_sub {α : Type} [Sub α] (image1 image2 : ImageView α) : ImageView α :=
  { cols := image1.cols, rows := image1.rows
    pixel := fun i j => image1.pixel i j - image2.pixel i j }

/-- `create_mask(image, nodata)`: a pixel equal to `nodata` becomes the invalid
default pixel, any other pixel is valid. -/
def create_mask {α : Type} [BEq α] [Zero α] (image : ImageView α) (nodata : α) :
    ImageView (PixelMask α) :=
  { cols := image.cols, rows := image.rows
    pixel := fun i j =>
      if image.pixel i j == nodata then ⟨0, false⟩ else ⟨image.pixel i j, true⟩ }

/-- `copy_mask(image, mask)`: the values of `image` with the validity of
`mask`. -/
def copy_mask {α β : Type} (image : ImageView α) (mask : ImageView (PixelMask β)) :
    ImageView (PixelMask α) :=
  { cols := image.cols, rows := image.rows
    pixel := fun i j => ⟨image.pixel i j, (mask.pixel i j).valid⟩ }

/-- `apply_mask(image, value)`: an invalid pixel becomes `value`, a valid one its
child. -/
def apply_mask {α : Type} (image : ImageView (PixelMask α)) (value : α) : ImageView α :=
  { cols := image.cols, rows := image.rows
    pixel := fun i j => if (image.pixel i j).valid then (image.pixel i j).child else value }

end vw

/-! ## `geodiff.cc`: `main` -/

namespace geodiff

/-- Lines 41-45: `desc`, the options `help,h`, `default-value` and
`output-prefix,o`. -/
def desc : po.options_description :=
  [ ⟨"help", some 'h', .flag⟩,
    ⟨"default-value", none, .double_value⟩,
    ⟨"output-prefix", some 'o', .string_value⟩ ]

/-- Lines 47-50: `positional`, the options `dem1` and `dem2`. -/
def positional : po.options_description :=
  [ ⟨"dem1", none, .string_value⟩,
    ⟨"dem2", none, .string_value⟩ ]

/-- Lines 52-54: `p`, one positional token for `dem1`, then one for `dem2`. -/
def p : po.positional_options_description := [("dem1", 1), ("dem2", 1)]

/-- Lines 56-57: `all_options`, `desc` followed by `positional`. -/
def all_options : po.options_description := desc ++ positional

/-- What `DiskImageResourceGDAL`, `DiskImageView<double>` and
`read_georeference` give for one DEM file. -/
structure DiskImageResourceGDAL (α G : Type) where
  nodata_read : Option α
  image : vw.ImageView α
  georef : G

/-- The surroundings of `main`: conversion of a token to `double`, the value
the uninitialised local `default_value` happens to hold, the DEM files that can
be opened, and the two cartography transforms of lines 93 and 94. -/
structure Env (α G : Type) where
  lexical_cast : String → Option α
  indeterminate : α
  file : String → Option (DiskImageResourceGDAL α G)
  reproject : vw.ImageView α → G → G → vw.ImageView α
  geo_transform : vw.ImageView α → G → G → vw.ImageView α

/-- What `main` prints. -/
inductive Output (α : Type) where
  | error_parsing (e : po.error)
  | usage (argv0 : String)
  | found_nodata (value : α)

/-- The result of a run: the value returned (`none` when an exception leaves
`main`), the messages printed, and the file written with its raster and
georeference. -/
structure Outcome (α G : Type) where
  exit_code : Option Int
  stdout : List (Output α)
  written : Option (String × vw.ImageView α × G)

/-- Lines 59-62: `po::store(command_line_parser(argc, argv).options(options)
.positional(p).run(), vm)` for the description `options` handed to the
parser. -/
def parse_command_line {α : Type} (options : po.options_description)
    (lexical_cast : String → Option α) (args : List String) :
    Except po.error (po.variables_map α) :=
  match po.run options p args with
  | .error e => .error e
  | .ok parsed => po.store options lexical_cast [] parsed

/-- The value `po::notify` leaves in a `string` variable bound to `name`; the
variable keeps its initial empty value when the option was not stored. -/
def string_variable {α : Type} (vm : po.variables_map α) (name : String) : String :=
  match vm.lookup name with
  | some (.string s) => s
  | _ => ""

/-- The value `po::notify` leaves in the `double` variable bound to `name`. -/
def double_variable {α : Type} (vm : po.variables_map α) (name : String) (initial : α) : α :=
  match vm.lookup name with
  | some (.double a) => a
  | _ => initial

/-- Lines 74-77 and 99: the name of the file written. -/
def output_file ( output_prefix : String) (dem1_name dem2_name : String) : String :=
  (if output_prefix = "" then
      fs.append (fs.branch_path dem1_name)
        (fs.basename dem1_name ++ "__" ++ fs.basename dem2_name)
    else output_prefix) ++ "-diff.tif"

/-- Lines 80-83: the missing-pixel value in effect. -/
def effective_default_value {α : Type} (default_value : α) (count_default_value : Nat)
    (nodata_read : Option α) : α :=
  match count_default_value, nodata_read with
  | 0, some nodata => nodata
  | _, _ => default_value

/-- Lines 93-94: the second DEM brought onto the grid of the first. -/
def dem2_trans {α G : Type} (env : Env α G) (dem1 dem2 : DiskImageResourceGDAL α G) :
    vw.ImageView α :=
  let dem2_reproj := env.reproject dem2.image dem2.georef dem1.georef
  vw.crop (env.geo_transform dem2_reproj dem2.georef dem1.georef) 0 0
    dem1.image.cols dem1.image.rows

/-- Lines 96-97: `diff`. -/
def diff {α : Type} [BEq α] [Zero α] [Sub α] (dem1_dmg dem2_trans : vw.ImageView α)
    (default_value : α) : vw.ImageView α :=
  let diff_masked :=
    vw.copy_mask (vw.image_sub dem1_dmg dem2_trans) (vw.create_mask dem1_dmg default_value)
  vw.apply_mask diff_masked default_value

/-- Lines 74-106: the body of `main` once the names are bound. -/
def difference {α G : Type} [BEq α] [Zero α] [Sub α] (env : Env α G)
    (dem1_name dem2_name : String) ( output_prefix : String) (default_value : α)
    (count_default_value : Nat) : Outcome α G :=
  match env.file dem1_name, env.file dem2_name with
  | some dem1, some dem2 =>
    { exit_code := some 0
      stdout :=
        match count_default_value, dem1.nodata_read with
        | 0, some nodata => [Output.found_nodata nodata]
        | _, _ => []
      written :=
        some (output_file output_prefix dem1_name dem2_name,
          diff dem1.image (dem2_trans env dem1 dem2)
            (effective_default_value default_value count_default_value dem1.nodata_read),
          dem1.georef) }
  | _, _ => { exit_code := none, stdout := [], written := none }

/-- `main(argc, argv)`: `argv` is the whole argument vector, program name
first. -/
def main {α G : Type} [BEq α] [Zero α] [Sub α] (env : Env α G) (argv : List String) :
    Outcome α G :=
  match parse_command_line desc env.lexical_cast argv.tail with
  | .error e => { exit_code := some 1, stdout := [Output.error_parsing e], written := none }
  | .ok vm =>
    if string_variable vm "dem1" = "" ∨ string_variable vm "dem2" = ""
        ∨ vm.count "help" ≠ 0 then
      { exit_code := some 1, stdout := [Output.usage (argv.headD "")], written := none }
    else
      difference env (string_variable vm "dem1") (string_variable vm "dem2")
        (string_variable vm "output-prefix")
        (double_variable vm "default-value" env.indeterminate)
        (vm.count "default-value")

end geodiff

/-! ## Sample inputs -/

/-- A first DEM of two pixels, the left one missing (`-1` is its nodata value). -/
def sampleDem1 : geodiff.DiskImageResourceGDAL ℤ Unit :=
  { nodata_read := some (-1)
    image := { cols := 2, rows := 1, pixel := fun x _ => if x = 0 then -1 else 10 }
    georef := () }

/-- A second DEM whose pixels all carry its own nodata value `-5`. -/
def sampleDem2 : geodiff.DiskImageResourceGDAL ℤ Unit :=
  { nodata_read := some (-5)
    image := { cols := 3, rows := 2, pixel := fun _ _ => -5 }
    georef := () }

/-- Two DEM files that share one georeference, so that both transforms leave the
raster as it is. -/
def sampleEnv : geodiff.Env ℤ Unit :=
  { lexical_cast := fun _ => none
    indeterminate := 0
    file := fun name =>
      if name = "a/b/x.tif" then some sampleDem1
      else if name = "c/y.tif" then some sampleDem2
      else none
    reproject := fun image _ _ => image
    geo_transform := fun image _ _ => image }

/-! ## Properties -/

/-- C1: `StereoSessionRPC::camera_model` never yields a camera model.  For every
image file and every camera file, written out or left to its default, the call
fails with `NoImplErr` carrying the message "StereoSessionRPC: Not implemented",
both on the method itself and through the session that `construct` returns. -/
theorem StereoSessionRPC.camera_model_not_implemented {CameraModel : Type}
    (image_file : String) (camera_file : Option String) :
    (StereoSessionRPC.camera_model image_file (camera_file.getD "") :
        Except VwException CameraModel)
      = Except.error (VwException.NoImplErr "StereoSessionRPC: Not implemented")
    ∧ (StereoSessionRPC.construct : StereoSession CameraModel).call_camera_model
        image_file camera_file
      = Except.error (VwException.NoImplErr "StereoSessionRPC: Not implemented")
    ∧ ∀ model : CameraModel,
        (StereoSessionRPC.construct : StereoSession CameraModel).call_camera_model
          image_file camera_file ≠ Except.ok model := by
  refine ⟨rfl, rfl, ?_⟩
  intro model h
  simp [StereoSession.call_camera_model, StereoSessionRPC.construct,
    StereoSessionRPC.camera_model] at h

/-- C6: on `IsisInterface` the pixel argument of `camera_center`, `camera_pose`
and `sun_position` defaults to the origin, so the call without argument equals
the call at `(0, 0)`; `point_to_pixel`, `pixel_to_vector` and `ephemeris_time`
declare no default, so a call without argument is ill-formed while every call
with an argument is well-formed. -/
theorem IsisInterface.default_pixel_is_origin {α : Type} [Zero α] (c : IsisInterface α) :
    (IsisInterface.Call.eval c (.camera_center none)
        = some (.vector3 (c.camera_center ⟨0, 0⟩))
      ∧ IsisInterface.Call.eval c (.camera_center none)
        = IsisInterface.Call.eval c (.camera_center (some ⟨0, 0⟩)))
    ∧ (IsisInterface.Call.eval c (.camera_pose none)
        = some (.quat (c.camera_pose ⟨0, 0⟩))
      ∧ IsisInterface.Call.eval c (.camera_pose none)
        = IsisInterface.Call.eval c (.camera_pose (some ⟨0, 0⟩)))
    ∧ (IsisInterface.Call.eval c (.sun_position none)
        = some (.vector3 (c.sun_position ⟨0, 0⟩))
      ∧ IsisInterface.Call.eval c (.sun_position none)
        = IsisInterface.Call.eval c (.sun_position (some ⟨0, 0⟩)))
    ∧ (IsisInterface.Call.eval c (.point_to_pixel none) = none
      ∧ ∀ point, IsisInterface.Call.eval c (.point_to_pixel (some point))
          = some (.vector2 (c.point_to_pixel point)))
    ∧ (IsisInterface.Call.eval c (.pixel_to_vector none) = none
      ∧ ∀ pix, IsisInterface.Call.eval c (.pixel_to_vector (some pix))
          = some (.vector3 (c.pixel_to_vector pix)))
    ∧ (IsisInterface.Call.eval c (.ephemeris_time none) = none
      ∧ ∀ pix, IsisInterface.Call.eval c (.ephemeris_time (some pix))
          = some (.scalar (c.ephemeris_time pix))) := by
  refine ⟨⟨rfl, rfl⟩, ⟨rfl, rfl⟩, ⟨rfl, rfl⟩, ⟨rfl, ?_⟩, ⟨rfl, ?_⟩, ⟨rfl, ?_⟩⟩ <;>
    intro _ <;> rfl

/-- C4: identity-adjustment transparency.  Over exact arithmetic (any commutative
ring of scalars), an adjusted camera model holding the identity correction
returns the base model's `camera_center` and `camera_pose` at every pixel. -/
theorem AdjustedCameraModel.identity_transparent {α : Type} [CommRing α]
    (base : IsisInterface α) (pixel : Vector2 α) :
    AdjustedCameraModel.camera_center ⟨base, PoseCorrection.identity⟩ pixel
      = base.camera_center pixel
    ∧ AdjustedCameraModel.camera_pose ⟨base, PoseCorrection.identity⟩ pixel
      = base.camera_pose pixel := by
  constructor
  · show (PoseCorrection.identity.translation
        + Quat.rotate PoseCorrection.identity.rotation (base.camera_center pixel) : Vector3 α)
      = base.camera_center pixel
    rcases base.camera_center pixel with ⟨a, b, c⟩
    show (Vector3.mk _ _ _ : Vector3 α) = _
    simp [PoseCorrection.identity, Quat.identity, Quat.rotate, Quat.mul, Quat.conj]
  · show Quat.mul PoseCorrection.identity.rotation (base.camera_pose pixel)
      = base.camera_pose pixel
    rcases base.camera_pose pixel with ⟨w, x, y, z⟩
    simp [PoseCorrection.identity, Quat.identity, Quat.mul]

/-! ### Residual computation -/

theorem ResidualComputer.foldl_append_singleton {β γ : Type} (g : β → γ) (ms : List β)
    (acc : List γ) :
    ms.foldl (fun out m => out ++ [g m]) acc = acc ++ ms.map g := by
  induction ms generalizing acc with
  | nil => simp
  | cons m ms ih => simp [List.foldl_cons, ih]

theorem ResidualComputer.foldl_network {n : Nat} {α : Type} [Sub α]
    (models : Fin n → CameraModel α) (network : ControlNetwork n α)
    (acc : List (Residual α)) :
    network.foldl
      (fun out tp =>
        tp.measurements.foldl
          (fun out m => out ++ [ResidualComputer.residual models tp.ground_position m]) out)
      acc
    = acc ++ (ControlNetwork.observations network).map
        (fun o => ResidualComputer.residual models o.1 o.2) := by
  induction network generalizing acc with
  | nil => simp [ControlNetwork.observations]
  | cons tp rest ih =>
    rw [List.foldl_cons, ih, ResidualComputer.foldl_append_singleton]
    simp [ControlNetwork.observations, List.map_append, List.map_map, Function.comp_def]

/-- The residual vector is the residual of each observation, in observation
order. -/
theorem ResidualComputer.compute_eq_map {n : Nat} {α : Type} [Sub α]
    (models : Fin n → CameraModel α) (network : ControlNetwork n α) :
    ResidualComputer.compute models network
      = (ControlNetwork.observations network).map
          (fun o => ResidualComputer.residual models o.1 o.2) := by
  unfold ResidualComputer.compute
  rw [ResidualComputer.foldl_network]
  simp

/-- One entry per observation. -/
theorem ResidualComputer.compute_length {n : Nat} {α : Type} [Sub α]
    (models : Fin n → CameraModel α) (network : ControlNetwork n α) :
    (ResidualComputer.compute models network).length
      = (ControlNetwork.observations network).length := by
  rw [ResidualComputer.compute_eq_map]
  simp

/-- The entry of an observation whose projection yields a pixel. -/
theorem ResidualComputer.compute_entry_of_projection {n : Nat} {α : Type} [Sub α]
    (models : Fin n → CameraModel α) (network : ControlNetwork n α)
    (k : Nat) (P : Vector3 α) (m : Measurement n α) (projected_pixel : Vector2 α)
    (hk : (ControlNetwork.observations network)[k]? = some (P, m))
    (hp : (models m.camera_index).point_to_pixel P = some projected_pixel) :
    (ResidualComputer.compute models network)[k]?
      = some (Residual.error (projected_pixel - m.observed_pixel)) := by
  rw [ResidualComputer.compute_eq_map]
  simp [List.getElem?_map, hk, ResidualComputer.residual, hp]

/-- C3: the residual vector has exactly one entry per measurement, in
observation order (tie points in network order, measurements in stored order
within a tie point); the entry of a measurement `(camera_index, observed_pixel)`
of a tie point at ground position `P` whose projection yields a pixel is that
pixel minus the observed pixel. -/
theorem ResidualComputer.compute_entries {n : Nat} {α : Type} [Sub α]
    (models : Fin n → CameraModel α) (network : ControlNetwork n α) :
    (ResidualComputer.compute models network).length
      = (ControlNetwork.observations network).length
    ∧ ∀ (k : Nat) (P : Vector3 α) (m : Measurement n α) (projected_pixel : Vector2 α),
        (ControlNetwork.observations network)[k]? = some (P, m) →
        (models m.camera_index).point_to_pixel P = some projected_pixel →
        (ResidualComputer.compute models network)[k]?
          = some (Residual.error (projected_pixel - m.observed_pixel)) := by
  exact ⟨ResidualComputer.compute_length models network,
    fun k P m projected_pixel hk hp =>
      ResidualComputer.compute_entry_of_projection models network k P m projected_pixel hk hp⟩

/-- Witness for C3 on the scenario of spec section 8.6: both entries are
projection minus observation. -/
theorem ResidualComputer.compute_entries_witness :
    (ControlNetwork.observations sampleNetwork)[1]?
      = some (⟨0, 0, 1000⟩, ⟨1, ⟨500, 380⟩⟩)
    ∧ (sampleModels 1).point_to_pixel ⟨0, 0, 1000⟩ = some ⟨503, 377⟩
    ∧ (ResidualComputer.compute sampleModels sampleNetwork)[1]?
        = some (Residual.error (⟨503, 377⟩ - ⟨500, 380⟩)) :=
  ⟨rfl, rfl,
    (ResidualComputer.compute_entries sampleModels sampleNetwork).2 1 ⟨0, 0, 1000⟩
      ⟨1, ⟨500, 380⟩⟩ ⟨503, 377⟩ rfl rfl⟩

/-- C5: partial-failure isolation.  When the projection of exactly one
measurement (the one at position `k` of the observation order) fails, the
computation still yields a vector with one entry per measurement; the entry at
`k` is the flagged value; every other entry is projected pixel minus observed
pixel, and it coincides with the entry computed from any other model set whose
projections agree on that measurement. -/
theorem ResidualComputer.partial_failure_isolation {n : Nat} {α : Type} [Sub α]
    (models : Fin n → CameraModel α) (network : ControlNetwork n α)
    (k : Nat) (Pk : Vector3 α) (mk : Measurement n α)
    (hk : (ControlNetwork.observations network)[k]? = some (Pk, mk))
    (hfail : (models mk.camera_index).point_to_pixel Pk = none)
    (hothers : ∀ (j : Nat) (P : Vector3 α) (m : Measurement n α), j ≠ k →
      (ControlNetwork.observations network)[j]? = some (P, m) →
      (models m.camera_index).point_to_pixel P ≠ none) :
    (ResidualComputer.compute models network).length
      = (ControlNetwork.observations network).length
    ∧ (ResidualComputer.compute models network)[k]? = some Residual.flagged
    ∧ (∀ (j : Nat) (P : Vector3 α) (m : Measurement n α), j ≠ k →
        (ControlNetwork.observations network)[j]? = some (P, m) →
        ∃ projected_pixel, (models m.camera_index).point_to_pixel P = some projected_pixel
          ∧ (ResidualComputer.compute models network)[j]?
              = some (Residual.error (projected_pixel - m.observed_pixel)))
    ∧ (∀ (models' : Fin n → CameraModel α) (j : Nat) (P : Vector3 α) (m : Measurement n α),
        j ≠ k →
        (ControlNetwork.observations network)[j]? = some (P, m) →
        (models' m.camera_index).point_to_pixel P = (models m.camera_index).point_to_pixel P →
        (ResidualComputer.compute models network)[j]?
          = (ResidualComputer.compute models' network)[j]?) := by
  refine ⟨ResidualComputer.compute_length models network, ?_, ?_, ?_⟩
  · rw [ResidualComputer.compute_eq_map]
    simp [List.getElem?_map, hk, ResidualComputer.residual, hfail]
  · intro j P m hj hobs
    cases hp : (models m.camera_index).point_to_pixel P with
    | none => exact absurd hp (hothers j P m hj hobs)
    | some projected_pixel =>
      exact ⟨projected_pixel, rfl,
        ResidualComputer.compute_entry_of_projection models network j P m projected_pixel
          hobs hp⟩
  · intro models' j P m _ hobs hagree
    rw [ResidualComputer.compute_eq_map, ResidualComputer.compute_eq_map]
    simp [List.getElem?_map, hobs, ResidualComputer.residual, hagree]

/-- Witness for C5: camera 1 fails on the single tie point, camera 0 does not. -/
theorem ResidualComputer.partial_failure_isolation_witness :
    ResidualComputer.compute halfBlindModels sampleNetwork
      = [Residual.error ⟨-2, 6⟩, Residual.flagged]
    ∧ (ResidualComputer.compute halfBlindModels sampleNetwork)[1]? = some Residual.flagged :=
  ⟨by decide,
    (ResidualComputer.partial_failure_isolation halfBlindModels sampleNetwork 1 ⟨0, 0, 1000⟩
      ⟨1, ⟨500, 380⟩⟩ rfl rfl
      (by
        intro j P m hj hobs
        match j, hj, hobs with
        | 0, _, hobs =>
          simp [ControlNetwork.observations, sampleNetwork] at hobs
          obtain ⟨rfl, rfl⟩ := hobs
          simp [halfBlindModels, fixedCamera]
        | 1, hj, _ => exact absurd rfl hj
        | (j + 2), _, hobs =>
          simp [ControlNetwork.observations, sampleNetwork] at hobs)).2.1⟩

/-! ### `geodiff`: paths -/

theorem fs.split_last_none (c : Char) (l : List Char) (h : c ∉ l) : fs.split_last c l = none := by
  induction l with
  | nil => rfl
  | cons a rest ih =>
    have h1 : a ≠ c := fun e => h (by simp [e])
    have h2 : c ∉ rest := fun m => h (by simp [m])
    simp [fs.split_last, ih h2, h1]

theorem fs.split_last_append (c : Char) (before after : List Char) (h : c ∉ after) :
    fs.split_last c (before ++ c :: after) = some (before, after) := by
  induction before with
  | nil => simp [fs.split_last, fs.split_last_none c after h]
  | cons a rest ih => simp [fs.split_last, ih]

theorem fs.strip_trailing_slashes_id (l : List Char) (h : l.getLast? ≠ some '/') :
    fs.strip_trailing_slashes l = l := by
  unfold fs.strip_trailing_slashes
  rcases List.eq_nil_or_concat l with rfl | ⟨init, a, rfl⟩
  · rfl
  · have ha : a ≠ '/' := by simpa using h
    simp [List.dropWhile, ha]

theorem fs.branch_path_dir (dir leaf : List Char) (hd : dir ≠ [])
    (hlast : dir.getLast? ≠ some '/') (hleaf : '/' ∉ leaf) :
    fs.branch_path (String.mk (dir ++ '/' :: leaf)) = String.mk dir := by
  unfold fs.branch_path
  simp only [fs.split_last_append '/' dir leaf hleaf, fs.strip_trailing_slashes_id dir hlast]

theorem fs.leaf_dir (dir leaf : List Char) (hleaf : '/' ∉ leaf) :
    fs.leaf (String.mk (dir ++ '/' :: leaf)) = leaf := by
  unfold fs.leaf
  simp only [fs.split_last_append '/' dir leaf hleaf]

theorem fs.basename_dir (dir stem ext : List Char) (hs : '/' ∉ stem) (he : '/' ∉ ext)
    (hdot : '.' ∉ ext) :
    fs.basename (String.mk (dir ++ '/' :: (stem ++ '.' :: ext))) = String.mk stem := by
  have hleaf : '/' ∉ stem ++ '.' :: ext := by simp [hs, he]
  unfold fs.basename
  rw [fs.leaf_dir dir _ hleaf]
  simp only [fs.split_last_append '.' stem ext hdot]

theorem fs.basename_plain (stem ext : List Char) (hs : '/' ∉ stem) (he : '/' ∉ ext)
    (hdot : '.' ∉ ext) :
    fs.basename (String.mk (stem ++ '.' :: ext)) = String.mk stem := by
  have hleaf : '/' ∉ stem ++ '.' :: ext := by simp [hs, he]
  unfold fs.basename fs.leaf
  simp only [fs.split_last_none '/' _ hleaf, fs.split_last_append '.' stem ext hdot]

theorem fs.branch_path_plain (leaf : List Char) (hleaf : '/' ∉ leaf) :
    fs.branch_path (String.mk leaf) = "" := by
  unfold fs.branch_path
  simp only [fs.split_last_none '/' _ hleaf]

theorem fs.append_dir (dir rest : List Char) (c : Char) (hd : dir ≠ [])
    (hlast : dir.getLast? ≠ some '/') (hc : c ≠ '/') :
    fs.append (String.mk dir) (String.mk (c :: rest)) = String.mk (dir ++ '/' :: c :: rest) := by
  unfold fs.append
  have h1 : (String.mk dir = "") = False := by
    simp only [eq_iff_iff, iff_false]
    intro h
    exact hd (congrArg String.data h)
  simp only [h1, if_false, hlast, List.head?_cons, Option.some.injEq, hc, or_self]
  apply String.ext
  simp [String.data_append]

theorem geodiff.output_file_dir (dir stem1 ext1 dem2dir stem2 ext2 : List Char) (c : Char)
    (hd : dir ≠ []) (hlast : dir.getLast? ≠ some '/') (hc : c ≠ '/')
    (hs1 : '/' ∉ stem1) (he1 : '/' ∉ ext1) (hdot1 : '.' ∉ ext1)
    (hs2 : '/' ∉ stem2) (he2 : '/' ∉ ext2) (hdot2 : '.' ∉ ext2) :
    geodiff.output_file "" (String.mk (dir ++ '/' :: (c :: stem1 ++ '.' :: ext1)))
        (String.mk (dem2dir ++ '/' :: (stem2 ++ '.' :: ext2)))
      = String.mk (dir ++ '/' :: (c :: stem1 ++ "__".data ++ stem2 ++ "-diff.tif".data)) := by
  have hcs : '/' ∉ c :: stem1 := by simp [hs1, Ne.symm hc]
  have hleaf : '/' ∉ c :: stem1 ++ '.' :: ext1 := by simp [hs1, he1, Ne.symm hc]
  unfold geodiff.output_file
  rw [if_pos rfl, fs.branch_path_dir dir _ hd hlast hleaf,
    fs.basename_dir dir (c :: stem1) ext1 hcs he1 hdot1,
    fs.basename_dir dem2dir stem2 ext2 hs2 he2 hdot2]
  show fs.append (String.mk dir) (String.mk (c :: (stem1 ++ "__".data ++ stem2))) ++ _ = _
  rw [fs.append_dir dir _ c hd hlast hc]
  apply String.ext
  simp [String.data_append]

/-! ### `geodiff`: the command line -/

theorem po.cmdline_positional (desc : po.options_description) (tok : String)
    (rest : List String) (h : tok.data.head? ≠ some '-') :
    po.cmdline desc false (tok :: rest)
      = (po.cmdline desc false rest).map (fun more => ⟨"", [tok]⟩ :: more) := by
  rw [po.cmdline]
  split
  · rename_i heq; rw [heq] at h; exact absurd rfl h
  · rename_i heq; rw [heq] at h; exact absurd rfl h
  · rename_i heq; rw [heq] at h; exact absurd rfl h
  · rfl

theorem po.run_two_positional (desc : po.options_description) (dem1 dem2 : String)
    (h1 : dem1.data.head? ≠ some '-') (h2 : dem2.data.head? ≠ some '-') :
    po.run desc geodiff.p [dem1, dem2] = .ok [⟨"dem1", [dem1]⟩, ⟨"dem2", [dem2]⟩] := by
  unfold po.run
  rw [po.cmdline_positional desc dem1 _ h1, po.cmdline_positional desc dem2 _ h2]
  rfl

/-- C7 (the code departs from it): the invocation the usage text documents,
`geodiff <dem1> <dem2>` with two names that do not begin with a dash, is not
accepted.  The parser is handed `desc`, which declares neither `dem1` nor
`dem2`, so storing the first positional token raises `unknown_option` for
`dem1`; `main` prints the parse error, returns 1 and writes nothing. -/
theorem geodiff.main_two_positional {α G : Type} [BEq α] [Zero α] [Sub α]
    (env : geodiff.Env α G) (argv0 dem1 dem2 : String)
    (h1 : dem1.data.head? ≠ some '-') (h2 : dem2.data.head? ≠ some '-') :
    geodiff.parse_command_line geodiff.desc env.lexical_cast [dem1, dem2]
      = .error (po.error.unknown_option "dem1")
    ∧ (geodiff.main env [argv0, dem1, dem2]).exit_code = some 1
    ∧ (geodiff.main env [argv0, dem1, dem2]).stdout
        = [geodiff.Output.error_parsing (po.error.unknown_option "dem1")]
    ∧ (geodiff.main env [argv0, dem1, dem2]).written = none := by
  have hparse : geodiff.parse_command_line geodiff.desc env.lexical_cast [dem1, dem2]
      = .error (po.error.unknown_option "dem1") := by
    unfold geodiff.parse_command_line
    rw [po.run_two_positional geodiff.desc dem1 dem2 h1 h2]
    rfl
  have hmain : geodiff.main env [argv0, dem1, dem2]
      = { exit_code := some 1
          stdout := [geodiff.Output.error_parsing (po.error.unknown_option "dem1")]
          written := none } := by
    unfold geodiff.main
    rw [show [argv0, dem1, dem2].tail = [dem1, dem2] from rfl, hparse]
  exact ⟨hparse, by rw [hmain], by rw [hmain], by rw [hmain]⟩

/-- Had `all_options` (lines 56-57) been handed to the parser, the documented
invocation would bind `dem1` to the first name and `dem2` to the second. -/
theorem geodiff.all_options_two_positional {α : Type} (lexical_cast : String → Option α)
    (dem1 dem2 : String)
    (h1 : dem1.data.head? ≠ some '-') (h2 : dem2.data.head? ≠ some '-') :
    geodiff.parse_command_line geodiff.all_options lexical_cast [dem1, dem2]
      = .ok [("dem1", .string dem1), ("dem2", .string dem2)] := by
  unfold geodiff.parse_command_line
  rw [po.run_two_positional geodiff.all_options dem1 dem2 h1 h2]
  rfl

theorem po.lookup_append_singleton {α : Type} (vm : po.variables_map α) (key name : String)
    (v : po.variable_value α) (hne : key ≠ name) (hvm : vm.lookup name = none) :
    (vm ++ [(key, v)]).lookup name = none := by
  induction vm with
  | nil =>
    have hb : (name == key) = false := by simpa using Ne.symm hne
    simp [List.lookup, hb]
  | cons e rest ih =>
    obtain ⟨k, w⟩ := e
    simp only [List.cons_append, List.lookup] at hvm ⊢
    cases hk : name == k with
    | true => simp [hk] at hvm
    | false =>
      simp only [hk] at hvm ⊢
      exact ih hvm

theorem po.find_exact_long_name (desc : po.options_description) (key : String)
    (d : po.option_description) (h : po.find_exact desc key = some d) :
    d ∈ desc ∧ d.long_name = key := by
  unfold po.find_exact at h
  exact ⟨List.mem_of_find?_eq_some h, by simpa using List.find?_some h⟩

theorem po.store_one_lookup {α : Type} (desc : po.options_description)
    (lexical_cast : String → Option α) (vm vm' : po.variables_map α) (opt : po.basic_option)
    (name : String) (hdesc : ∀ d ∈ desc, d.long_name ≠ name)
    (hvm : vm.lookup name = none)
    (h : po.store_one desc lexical_cast vm opt = .ok vm') :
    vm'.lookup name = none := by
  unfold po.store_one at h
  split at h
  · cases h; exact hvm
  · split at h
    · cases h
    · rename_i d hfind
      have hd := hdesc d (po.find_exact_long_name desc _ d hfind).1
      split at h
      · cases h
      · split at h
        · cases h; exact po.lookup_append_singleton vm _ name _ hd hvm
        · cases h; exact po.lookup_append_singleton vm _ name _ hd hvm
        · split at h
          · cases h; exact po.lookup_append_singleton vm _ name _ hd hvm
          · cases h
        · cases h

theorem po.store_lookup {α : Type} (desc : po.options_description)
    (lexical_cast : String → Option α) (parsed : List po.basic_option)
    (vm vm' : po.variables_map α) (name : String)
    (hdesc : ∀ d ∈ desc, d.long_name ≠ name) (hvm : vm.lookup name = none)
    (h : po.store desc lexical_cast vm parsed = .ok vm') :
    vm'.lookup name = none := by
  induction parsed generalizing vm with
  | nil =>
    simp only [po.store] at h
    cases h; exact hvm
  | cons opt rest ih =>
    simp only [po.store] at h
    split at h
    · cases h
    · rename_i vm1 h1
      exact ih vm1 (po.store_one_lookup desc lexical_cast vm vm1 opt name hdesc hvm h1) h

/-- With `desc` handed to the parser, no command line leaves a value in the
variable bound to `dem1`. -/
theorem geodiff.dem1_name_never_bound {α : Type} (lexical_cast : String → Option α)
    (args : List String) (vm : po.variables_map α)
    (h : geodiff.parse_command_line geodiff.desc lexical_cast args = .ok vm) :
    geodiff.string_variable vm "dem1" = "" := by
  unfold geodiff.parse_command_line at h
  split at h
  · cases h
  · have hnone : vm.lookup "dem1" = none :=
      po.store_lookup geodiff.desc lexical_cast _ [] vm "dem1" (by decide) rfl h
    simp [geodiff.string_variable, hnone]

/-- Every run of `main` returns 1 and writes nothing, whatever the arguments. -/
theorem geodiff.main_always_returns_one {α G : Type} [BEq α] [Zero α] [Sub α]
    (env : geodiff.Env α G) (argv : List String) :
    (geodiff.main env argv).exit_code = some 1 ∧ (geodiff.main env argv).written = none := by
  unfold geodiff.main
  split
  · exact ⟨rfl, rfl⟩
  · rename_i vm hvm
    have h1 := geodiff.dem1_name_never_bound env.lexical_cast argv.tail vm hvm
    simp [h1]

/-! ### `geodiff`: the difference raster and its file name -/

/-- C8: the raster `geodiff` writes lies on the grid of the first DEM; at every
pixel it holds the missing-pixel value where the first DEM equals that value and
otherwise the first DEM minus the second DEM reprojected, transformed and
cropped onto the first DEM's grid.  The nodata value of the second DEM plays no
part: a pixel where the transformed second DEM equals it is differenced like
any other. -/
theorem geodiff.difference_raster {α G : Type} [BEq α] [Zero α] [Sub α]
    (env : geodiff.Env α G) (dem1_name dem2_name : String) ( output_prefix : String)
    (default_value : α) (count_default_value : Nat)
    (dem1 dem2 : geodiff.DiskImageResourceGDAL α G)
    (h1 : env.file dem1_name = some dem1) (h2 : env.file dem2_name = some dem2) :
    ∃ (name : String) (raster : vw.ImageView α),
      (geodiff.difference env dem1_name dem2_name output_prefix default_value
          count_default_value).written = some (name, raster, dem1.georef)
      ∧ raster.cols = dem1.image.cols ∧ raster.rows = dem1.image.rows
      ∧ (geodiff.dem2_trans env dem1 dem2).cols = dem1.image.cols
      ∧ (geodiff.dem2_trans env dem1 dem2).rows = dem1.image.rows
      ∧ (∀ x y, (geodiff.dem2_trans env dem1 dem2).pixel x y
          = (env.geo_transform (env.reproject dem2.image dem2.georef dem1.georef)
              dem2.georef dem1.georef).pixel x y)
      ∧ (∀ x y, raster.pixel x y
          = if dem1.image.pixel x y
                == geodiff.effective_default_value default_value count_default_value
                    dem1.nodata_read
            then geodiff.effective_default_value default_value count_default_value
              dem1.nodata_read
            else dem1.image.pixel x y - (geodiff.dem2_trans env dem1 dem2).pixel x y)
      ∧ (∀ x y nodata2, dem2.nodata_read = some nodata2 →
          ((geodiff.dem2_trans env dem1 dem2).pixel x y == nodata2) = true →
          (dem1.image.pixel x y
              == geodiff.effective_default_value default_value count_default_value
                  dem1.nodata_read) = false →
          raster.pixel x y
            = dem1.image.pixel x y - (geodiff.dem2_trans env dem1 dem2).pixel x y) := by
  have hpix : ∀ x y,
      (geodiff.diff dem1.image (geodiff.dem2_trans env dem1 dem2)
          (geodiff.effective_default_value default_value count_default_value
            dem1.nodata_read)).pixel x y
        = if dem1.image.pixel x y
              == geodiff.effective_default_value default_value count_default_value
                  dem1.nodata_read
          then geodiff.effective_default_value default_value count_default_value
            dem1.nodata_read
          else dem1.image.pixel x y - (geodiff.dem2_trans env dem1 dem2).pixel x y := by
    intro x y
    show (if (vw.PixelMask.valid
              (if dem1.image.pixel x y == _ then (⟨0, false⟩ : vw.PixelMask α)
                else ⟨dem1.image.pixel x y, true⟩)) = true
          then dem1.image.pixel x y - (geodiff.dem2_trans env dem1 dem2).pixel x y
          else _) = _
    cases hb : (dem1.image.pixel x y
        == geodiff.effective_default_value default_value count_default_value
            dem1.nodata_read) <;> simp
  refine ⟨geodiff.output_file output_prefix dem1_name dem2_name,
    geodiff.diff dem1.image (geodiff.dem2_trans env dem1 dem2)
      (geodiff.effective_default_value default_value count_default_value dem1.nodata_read),
    ?_, rfl, rfl, rfl, rfl, ?_, hpix, ?_⟩
  · unfold geodiff.difference
    rw [h1, h2]
  · intro x y
    simp [geodiff.dem2_trans, vw.crop]
  · intro x y nodata2 _ _ hvalid
    rw [hpix x y, hvalid]
    rfl

/-- Witness for C8: the first DEM has its left pixel missing, the second DEM is
missing everywhere; the output holds the missing-pixel value on the left and the
plain difference `10 - (-5)` on the right. -/
theorem geodiff.difference_raster_witness :
    ∃ (name : String) (raster : vw.ImageView ℤ),
      (geodiff.difference sampleEnv "a/b/x.tif" "c/y.tif" "" 0 0).written
        = some (name, raster, ())
      ∧ raster.cols = 2 ∧ raster.rows = 1
      ∧ raster.pixel 0 0 = -1 ∧ raster.pixel 1 0 = 15 := by
  obtain ⟨name, raster, hw, hc, hr, _, _, _, hpix, _⟩ :=
    geodiff.difference_raster sampleEnv "a/b/x.tif" "c/y.tif" "" 0 0 sampleDem1 sampleDem2
      rfl rfl
  exact ⟨name, raster, hw, hc, hr, by rw [hpix]; decide, by rw [hpix]; decide⟩

/-- C9: the file written is named `output_prefix + "-diff.tif"`.  A non-empty
`--output-prefix` is used unchanged, whatever the DEM names are; an empty one
is replaced by the directory of the first DEM joined with
`basename(dem1) + "__" + basename(dem2)`, so that `a/b/x.tif` and `c/y.tif` give
`a/b/x__y-diff.tif`, and in general `dir/stem1.ext1` and `dir2/stem2.ext2` give
`dir/stem1__stem2-diff.tif`. -/
theorem geodiff.output_naming {α G : Type} [BEq α] [Zero α] [Sub α]
    (env : geodiff.Env α G) (dem1_name dem2_name : String) ( output_prefix : String)
    (default_value : α) (count_default_value : Nat)
    (dem1 dem2 : geodiff.DiskImageResourceGDAL α G)
    (h1 : env.file dem1_name = some dem1) (h2 : env.file dem2_name = some dem2) :
    (∃ (stem : String) (raster : vw.ImageView α),
      (geodiff.difference env dem1_name dem2_name output_prefix default_value
          count_default_value).written = some (stem ++ "-diff.tif", raster, dem1.georef)
      ∧ ( output_prefix ≠ "" → stem = output_prefix)
      ∧ ( output_prefix = "" →
          stem = fs.append (fs.branch_path dem1_name)
            (fs.basename dem1_name ++ "__" ++ fs.basename dem2_name)))
    ∧ ( output_prefix ≠ "" → ∀ other1 other2 : String,
        geodiff.output_file output_prefix other1 other2 = output_prefix ++ "-diff.tif")
    ∧ geodiff.output_file "" "a/b/x.tif" "c/y.tif" = "a/b/x__y-diff.tif"
    ∧ (∀ (dir stem1 ext1 dem2dir stem2 ext2 : List Char) (c : Char),
        dir ≠ [] → dir.getLast? ≠ some '/' → c ≠ '/' →
        '/' ∉ stem1 → '/' ∉ ext1 → '.' ∉ ext1 →
        '/' ∉ stem2 → '/' ∉ ext2 → '.' ∉ ext2 →
        geodiff.output_file "" (String.mk (dir ++ '/' :: (c :: stem1 ++ '.' :: ext1)))
            (String.mk (dem2dir ++ '/' :: (stem2 ++ '.' :: ext2)))
          = String.mk (dir ++ '/' :: (c :: stem1 ++ "__".data ++ stem2 ++ "-diff.tif".data))) := by
  refine ⟨?_, ?_, by decide, ?_⟩
  · refine ⟨if output_prefix = "" then
        fs.append (fs.branch_path dem1_name)
          (fs.basename dem1_name ++ "__" ++ fs.basename dem2_name)
      else output_prefix,
      geodiff.diff dem1.image (geodiff.dem2_trans env dem1 dem2)
        (geodiff.effective_default_value default_value count_default_value dem1.nodata_read),
      ?_, ?_, ?_⟩
    · unfold geodiff.difference
      rw [h1, h2]
      rfl
    · intro h; rw [if_neg h]
    · intro h; rw [if_pos h]
  · intro h other1 other2
    unfold geodiff.output_file
    rw [if_neg h]
  · intro dir stem1 ext1 dem2dir stem2 ext2 c hd hlast hc hs1 he1 hdot1 hs2 he2 hdot2
    exact geodiff.output_file_dir dir stem1 ext1 dem2dir stem2 ext2 c hd hlast hc hs1 he1 hdot1
      hs2 he2 hdot2

/-- Witness for C9: with no `--output-prefix`, `a/b/x.tif` and `c/y.tif` are
written to `a/b/x__y-diff.tif`. -/
theorem geodiff.output_naming_witness :
    ∃ raster : vw.ImageView ℤ,
      (geodiff.difference sampleEnv "a/b/x.tif" "c/y.tif" "" 0 0).written
        = some ("a/b/x__y-diff.tif", raster, ()) := by
  obtain ⟨⟨stem, raster, hw, _, hstem⟩, _⟩ :=
    geodiff.output_naming sampleEnv "a/b/x.tif" "c/y.tif" "" 0 0 sampleDem1 sampleDem2 rfl rfl
  refine ⟨raster, ?_⟩
  rw [hw, hstem rfl]
  rfl

/-- Witness for the rejected invocation: `geodiff a.tif b.tif` stops with a
parse error on `dem1`. -/
theorem geodiff.main_two_positional_witness :
    (geodiff.main sampleEnv ["geodiff", "a.tif", "b.tif"]).exit_code = some 1
    ∧ (geodiff.main sampleEnv ["geodiff", "a.tif", "b.tif"]).stdout
        = [geodiff.Output.error_parsing (po.error.unknown_option "dem1")] :=
  ⟨(geodiff.main_two_positional sampleEnv "geodiff" "a.tif" "b.tif" (by decide)
      (by decide)).2.1,
    (geodiff.main_two_positional sampleEnv "geodiff" "a.tif" "b.tif" (by decide)
      (by decide)).2.2.1⟩

end asp
